import Mathlib

/-!
Verification development for the asciicast v2 record format module
(`termtosvg/asciicast.py`).

The module is shallowly embedded:
* Python's dynamically typed values are modelled by `PyValue`
  (the subset of runtime values that can reach the functions under study:
  `None`, `bool`, `int`, `float`, `str`, `bytes`, `list`, `dict`,
  and the `AsciiCastTheme` namedtuple).
* Python `float` payloads are modelled as rationals. No theorem in this file
  performs float arithmetic; floats are only stored, compared for runtime
  type, and passed through, so this modelling is exact for those uses.
* Python exceptions are modelled with `Except PyError`.
* `json.dumps`/`json.loads` belong to the Python standard library, not to
  this repository.  Encoding is modelled down to the literal line with
  `dumps` (default separators, `ensure_ascii=False`), and decoding is
  modelled from the parsed JSON value onwards (`from_json_value` receives
  the value that `json.loads` would produce); `json.loads` applied to a
  `dumps`-produced line returns the same value, so round-trip statements
  are stated at the value level.
* The module-level incremental UTF-8 decoder
  `codecs.getincrementaldecoder('utf-8')('replace')` is modelled by
  `utf8DecodeLoop` together with an explicit decoder state (the buffered
  incomplete multi-byte prefix), threaded through `AsciiCastEvent.to_json_line`
  exactly as CPython's `BufferedIncrementalDecoder` threads its buffer.
-/

/-- Runtime type tags of the Python values that can reach this module;
`type(x)` is modelled by `pyType`. `boolT` is distinct from `intT` because
`type(True) is bool`, even though `bool` is a subclass of `int`. -/
inductive PyType where
  | noneT
  | boolT
  | intT
  | floatT
  | strT
  | bytesT
  | listT
  | dictT
  | themeT
deriving DecidableEq

/-- Dynamically typed Python values reaching the asciicast module.
`theme` mirrors the `AsciiCastTheme` namedtuple `(fg, bg, palette)`, whose
fields are unvalidated Python values. `bytes` payloads are byte lists
(each entry intended < 256). `dict` keeps insertion order, as Python dicts
do; dicts produced by `json.loads` have unique keys. -/
inductive PyValue where
  | none
  | bool (b : Bool)
  | int (n : Int)
  | float (q : Rat)
  | str (s : String)
  | bytes (bs : List Nat)
  | list (xs : List PyValue)
  | dict (kvs : List (String × PyValue))
  | theme (fg bg palette : PyValue)

/-- Python exceptions raised by the module (kind plus message/field). -/
inductive PyError where
  | typeError (msg : String)
  | valueError (msg : String)
  | attributeError (msg : String)
  | notImplementedError
deriving DecidableEq

/-- `type(v)` for a `PyValue`. -/
def pyType : PyValue → PyType
  | .none => .noneT
  | .bool _ => .boolT
  | .int _ => .intT
  | .float _ => .floatT
  | .str _ => .strT
  | .bytes _ => .bytesT
  | .list _ => .listT
  | .dict _ => .dictT
  | .theme _ _ _ => .themeT

/-- Python `v == n` for an integer literal `n`, as used by the
`version != 2` check (numeric cross-type equality; non-numeric values
compare unequal). Only the `int` case is reachable there, because the
check runs after type validation. -/
def pyEqInt (v : PyValue) (n : Int) : Bool :=
  match v with
  | .int m => m == n
  | .float q => q == (n : Rat)
  | .bool b => (cond b 1 0 : Int) == n
  | _ => false

/-- Python `v is None`. -/
def pyIsNone : PyValue → Bool
  | .none => true
  | _ => false

/-- First-match lookup in an ordered dict (models `d[k]`; dicts produced by
`json.loads` have unique keys, so first match is the match). -/
def dictLookup : List (String × PyValue) → String → Option PyValue
  | [], _ => Option.none
  | (k2, v) :: rest, k => if k2 = k then some v else dictLookup rest k

/-! ## The incremental UTF-8 decoder with `errors='replace'`

Models `codecs.getincrementaldecoder('utf-8')('replace')`: a stateful
decoder whose state is the buffered incomplete multi-byte prefix, fed with
`final=False` on each `.decode(...)` call.  Invalid sequences are replaced
by U+FFFD following the maximal-subpart policy CPython implements. -/

/-- Decoder state: `none` when the buffer is empty, `some (lead, conts)`
when a lead byte and the continuation bytes collected so far are buffered. -/
abbrev Utf8State := Option (Nat × List Nat)

/-- Total length in bytes of the UTF-8 sequence started by lead byte `b`
(`0` when `b` cannot start a sequence: stray continuation bytes `80..BF`,
overlong leads `C0`/`C1`, and `F5..FF`). -/
def leadLen (b : Nat) : Nat :=
  if b < 0x80 then 1
  else if b < 0xC2 then 0
  else if b < 0xE0 then 2
  else if b < 0xF0 then 3
  else if b < 0xF5 then 4
  else 0

/-- Payload bits carried by a multi-byte lead byte. -/
def leadVal (b : Nat) : Nat :=
  if b < 0xE0 then b - 0xC0 else if b < 0xF0 then b - 0xE0 else b - 0xF0

/-- Lower bound for the first continuation byte (tightened for `E0`/`F0`
to exclude overlong forms). -/
def cont1Lo (b : Nat) : Nat :=
  if b = 0xE0 then 0xA0 else if b = 0xF0 then 0x90 else 0x80

/-- Upper bound for the first continuation byte (tightened for `ED` to
exclude surrogates and for `F4` to exclude values above U+10FFFF). -/
def cont1Hi (b : Nat) : Nat :=
  if b = 0xED then 0x9F else if b = 0xF4 then 0x8F else 0xBF

/-- Scalar value assembled from a lead byte and its continuation bytes. -/
def utf8Assemble (lead : Nat) (conts : List Nat) : Nat :=
  conts.foldl (fun acc c => acc * 64 + (c - 0x80)) (leadVal lead)

/-- U+FFFD REPLACEMENT CHARACTER. -/
def replChar : Char := Char.ofNat 0xFFFD

/-- Process one byte with an empty buffer: ASCII is emitted, a valid lead
byte is buffered, anything else is replaced. -/
def utf8StartByte (b : Nat) : List Char × Utf8State :=
  if b < 0x80 then ([Char.ofNat b], Option.none)
  else if leadLen b = 0 then ([replChar], Option.none)
  else ([], some (b, []))

/-- Process one byte in decoder state `st`: with a buffered prefix, a valid
continuation byte extends or completes it; an invalid one replaces the
buffered maximal subpart with one U+FFFD and reprocesses the byte fresh. -/
def utf8Step (st : Utf8State) (b : Nat) : List Char × Utf8State :=
  match st with
  | Option.none => utf8StartByte b
  | some (lead, conts) =>
      let idx := conts.length + 1
      let lo := if idx = 1 then cont1Lo lead else 0x80
      let hi := if idx = 1 then cont1Hi lead else 0xBF
      if lo ≤ b ∧ b ≤ hi then
        if idx = leadLen lead - 1 then
          ([Char.ofNat (utf8Assemble lead (conts ++ [b]))], Option.none)
        else ([], some (lead, conts ++ [b]))
      else
        let r := utf8StartByte b
        (replChar :: r.1, r.2)

/-- One `decode(input, final=False)` call on the incremental decoder:
processes the bytes from state `st`, returning the decoded characters and
the new state (the buffered incomplete prefix, if any). -/
def utf8DecodeLoop (st : Utf8State) : List Nat → List Char × Utf8State
  | [] => ([], st)
  | b :: rest =>
      let r := utf8Step st b
      let r2 := utf8DecodeLoop r.2 rest
      (r.1 ++ r2.1, r2.2)

/-- UTF-8 encoding of one scalar value (models `str.encode('utf-8')`
per character). -/
def utf8EncodeChar (c : Char) : List Nat :=
  let n := c.toNat
  if n < 0x80 then [n]
  else if n < 0x800 then [0xC0 + n / 64, 0x80 + n % 64]
  else if n < 0x10000 then
    [0xE0 + n / 4096, 0x80 + (n / 64) % 64, 0x80 + n % 64]
  else
    [0xF0 + n / 262144, 0x80 + (n / 4096) % 64, 0x80 + (n / 64) % 64,
     0x80 + n % 64]

/-- UTF-8 encoding of a character list. -/
def utf8EncodeChars : List Char → List Nat
  | [] => []
  | c :: cs => utf8EncodeChar c ++ utf8EncodeChars cs

/-- `s.encode('utf-8')` on a string. -/
def utf8EncodeStr (s : String) : List Nat :=
  utf8EncodeChars s.data

/-! ## JSON serialization (`json.dumps`, default separators, `ensure_ascii=False`) -/

/-- Hex digit character (lowercase), as used in `\uXXXX` escapes. -/
def hexDigit (n : Nat) : String :=
  String.singleton (Char.ofNat (if n < 10 then 48 + n else 87 + n))

/-- JSON escaping of one character (`ensure_ascii=False`: only `"`, `\`
and control characters are escaped). -/
def jsonEscapeChar (c : Char) : String :=
  if c = Char.ofNat 34 then "\\\""
  else if c = Char.ofNat 92 then "\\\\"
  else if c = Char.ofNat 10 then "\\n"
  else if c = Char.ofNat 9 then "\\t"
  else if c = Char.ofNat 13 then "\\r"
  else if c = Char.ofNat 8 then "\\b"
  else if c = Char.ofNat 12 then "\\f"
  else if c.toNat < 0x20 then
    "\\u00" ++ hexDigit (c.toNat / 16) ++ hexDigit (c.toNat % 16)
  else String.singleton c

/-- A JSON string literal for `s`. -/
def jsonQuote (s : String) : String :=
  "\"" ++ String.join (s.data.map jsonEscapeChar) ++ "\""

/-- Fractional decimal digits of `r / d` (invariant `r < d`), with fuel;
exact for every binary float, whose decimal expansion is finite. -/
def fracDigits : Nat → Nat → Nat → String
  | 0, _, _ => ""
  | _ + 1, 0, _ => ""
  | fuel + 1, r, d => hexDigit ((r * 10) / d) ++ fracDigits fuel ((r * 10) % d) d

/-- `repr(f)` for a Python float modelled as a rational: exact decimal
expansion (every binary float has one; scientific notation for very
large/small magnitudes is not modelled, and no theorem in this file
evaluates `dumps` on a float). -/
def floatRepr (q : Rat) : String :=
  let sign := if q.num < 0 then "-" else ""
  let na := q.num.natAbs
  sign ++ toString (na / q.den) ++ "." ++
    (if na % q.den = 0 then "0" else fracDigits 30 (na % q.den) q.den)

mutual

/-- `json.dumps(v, ensure_ascii=False)` with the default separators
`', '` and `': '`; raises `TypeError` on values JSON cannot serialize
(`bytes`, `AsciiCastTheme`). -/
def dumps : PyValue → Except PyError String
  | .none => .ok "null"
  | .bool b => .ok (cond b "true" "false")
  | .int n => .ok (toString n)
  | .float q => .ok (floatRepr q)
  | .str s => .ok (jsonQuote s)
  | .bytes _ => .error (.typeError "Object of type bytes is not JSON serializable")
  | .theme _ _ _ =>
      .error (.typeError "Object of type AsciiCastTheme is not JSON serializable")
  | .list xs =>
      match dumpsItems xs with
      | .ok s => .ok ("[" ++ s ++ "]")
      | .error e => .error e
  | .dict kvs =>
      match dumpsEntries kvs with
      | .ok s => .ok ("\x7b" ++ s ++ "\x7d")
      | .error e => .error e

/-- Comma-separated serialization of array items. -/
def dumpsItems : List PyValue → Except PyError String
  | [] => .ok ""
  | [x] => dumps x
  | x :: y :: rest =>
      match dumps x with
      | .ok s =>
          match dumpsItems (y :: rest) with
          | .ok s2 => .ok (s ++ ", " ++ s2)
          | .error e => .error e
      | .error e => .error e

/-- Comma-separated serialization of object entries (`"key": value`). -/
def dumpsEntries : List (String × PyValue) → Except PyError String
  | [] => .ok ""
  | [(k, v)] =>
      match dumps v with
      | .ok s => .ok (jsonQuote k ++ ": " ++ s)
      | .error e => .error e
  | (k, v) :: kv2 :: rest =>
      match dumps v with
      | .ok s =>
          match dumpsEntries (kv2 :: rest) with
          | .ok s2 => .ok (jsonQuote k ++ ": " ++ s ++ ", " ++ s2)
          | .error e => .error e
      | .error e => .error e

end

/-! ## The records (`AsciiCastHeader`, `AsciiCastEvent`, dispatcher) -/

/-- The `AsciiCastHeader` namedtuple `(version, width, height, theme)`;
fields hold dynamically typed values, validated by `AsciiCastHeader.new`. -/
structure AsciiCastHeader where
  version : PyValue
  width : PyValue
  height : PyValue
  theme : PyValue

/-- The `AsciiCastEvent` namedtuple
`(time, event_type, event_data, duration)`. -/
structure AsciiCastEvent where
  time : PyValue
  event_type : PyValue
  event_data : PyValue
  duration : PyValue

/-- The variant-tagged record returned by `AsciiCastRecord.from_json_line`. -/
inductive AsciiCastRecordV where
  | header (h : AsciiCastHeader)
  | event (e : AsciiCastEvent)

/-- `AsciiCastHeader.types`: allowed runtime types per field. -/
def AsciiCastHeader.types (attr : String) : List PyType :=
  if attr = "version" then [.intT]
  else if attr = "width" then [.intT]
  else if attr = "height" then [.intT]
  else [.noneT, .themeT]

/-- `AsciiCastHeader.__new__`: stores the four fields, then checks each
field's runtime type against `types` in field order (`version`, `width`,
`height`, `theme`), raising `TypeError` at the first mismatch; afterwards
checks `version != 2` and raises `ValueError` on mismatch. -/
def AsciiCastHeader.new (version width height theme : PyValue) :
    Except PyError AsciiCastHeader :=
  if pyType version ∉ AsciiCastHeader.types "version" then
    .error (.typeError "version")
  else if pyType width ∉ AsciiCastHeader.types "width" then
    .error (.typeError "width")
  else if pyType height ∉ AsciiCastHeader.types "height" then
    .error (.typeError "height")
  else if pyType theme ∉ AsciiCastHeader.types "theme" then
    .error (.typeError "theme")
  else if pyEqInt version 2 = false then
    .error (.valueError "Only asciicast v2 format is supported")
  else .ok ⟨version, width, height, theme⟩

/-- `AsciiCastHeader.to_json_line` up to (but not including) `json.dumps`:
`self._asdict()` gives the ordered keys `version, width, height, theme`;
a present theme is replaced by its own `_asdict()` sub-object, an absent
(`None`) theme key is deleted.  A non-`None`, non-`AsciiCastTheme` theme
(impossible after validation) would fail `_asdict` with `AttributeError`. -/
def AsciiCastHeader.to_json_value (h : AsciiCastHeader) :
    Except PyError PyValue :=
  match h.theme with
  | .none =>
      .ok (.dict [("version", h.version), ("width", h.width),
                  ("height", h.height)])
  | .theme fg bg palette =>
      .ok (.dict [("version", h.version), ("width", h.width),
                  ("height", h.height),
                  ("theme", .dict [("fg", fg), ("bg", bg),
                                   ("palette", palette)])])
  | _ => .error (.attributeError "_asdict")

/-- `AsciiCastHeader.to_json_line`: the serialized line. -/
def AsciiCastHeader.to_json_line (h : AsciiCastHeader) :
    Except PyError String :=
  match h.to_json_value with
  | .ok v => dumps v
  | .error e => .error e

/-- `AsciiCastTheme(**v)`: keyword unpacking of `v` into the theme
namedtuple. `v` must be a mapping whose keys are exactly
`fg`, `bg`, `palette` (in any order); values are bound by keyword name.
Missing or unexpected keywords raise `TypeError`. -/
def themeFromKwargs (v : PyValue) : Except PyError PyValue :=
  match v with
  | .dict kvs =>
      let ks := kvs.map Prod.fst
      if ks.length = 3 ∧ "fg" ∈ ks ∧ "bg" ∈ ks ∧ "palette" ∈ ks then
        .ok (.theme ((dictLookup kvs "fg").getD .none)
                    ((dictLookup kvs "bg").getD .none)
                    ((dictLookup kvs "palette").getD .none))
      else .error (.typeError "AsciiCastTheme() keyword arguments")
  | _ => .error (.typeError "argument after ** must be a mapping")

/-- The dict comprehension in `AsciiCastHeader.from_json_line`:
`attributes[attr] if attr in attributes else None`. -/
def headerFiltered (kvs : List (String × PyValue)) (attr : String) : PyValue :=
  (dictLookup kvs attr).getD .none

/-- `AsciiCastHeader.from_json_line` after `json.loads`: builds the
filtered attribute dict (absent fields become `None`), converts a
non-`None` theme with `AsciiCastTheme(**...)`, then reconstructs through
`AsciiCastHeader.__new__` (which re-validates).  A non-object top-level
value would fail the string subscripts with `TypeError`. -/
def AsciiCastHeader.from_json_value (j : PyValue) :
    Except PyError AsciiCastHeader :=
  match j with
  | .dict kvs =>
      let fv := headerFiltered kvs "version"
      let fw := headerFiltered kvs "width"
      let fh := headerFiltered kvs "height"
      let ft := headerFiltered kvs "theme"
      if pyIsNone ft then AsciiCastHeader.new fv fw fh ft
      else
        match themeFromKwargs ft with
        | .ok tv => AsciiCastHeader.new fv fw fh tv
        | .error e => .error e
  | _ => .error (.typeError "line is not a JSON object")

/-- `AsciiCastEvent.types`: allowed runtime types per field. -/
def AsciiCastEvent.types (attr : String) : List PyType :=
  if attr = "time" then [.intT, .floatT]
  else if attr = "event_type" then [.strT]
  else if attr = "event_data" then [.bytesT]
  else [.noneT, .intT, .floatT]

/-- `AsciiCastEvent.__new__`: stores the four fields, then checks each
field's runtime type against `types` in field order, raising `TypeError`
at the first mismatch. -/
def AsciiCastEvent.new (time event_type event_data duration : PyValue) :
    Except PyError AsciiCastEvent :=
  if pyType time ∉ AsciiCastEvent.types "time" then
    .error (.typeError "time")
  else if pyType event_type ∉ AsciiCastEvent.types "event_type" then
    .error (.typeError "event_type")
  else if pyType event_data ∉ AsciiCastEvent.types "event_data" then
    .error (.typeError "event_data")
  else if pyType duration ∉ AsciiCastEvent.types "duration" then
    .error (.typeError "duration")
  else .ok ⟨time, event_type, event_data, duration⟩

/-- `AsciiCastEvent.to_json_line` up to `json.dumps`:
`event_data = utf8_decoder.decode(self.event_data)` on the shared
module-level incremental decoder (state `st` in, new state out), then the
3-element array `[self.time, self.event_type, event_data]`. `duration` is
never serialized. `decode` on a non-`bytes` argument raises `TypeError`. -/
def AsciiCastEvent.to_json_value (st : Utf8State) (e : AsciiCastEvent) :
    Except PyError (PyValue × Utf8State) :=
  match e.event_data with
  | .bytes bs =>
      let r := utf8DecodeLoop st bs
      .ok (.list [e.time, e.event_type, .str (String.mk r.1)], r.2)
  | _ => .error (.typeError "decode() argument must be bytes")

/-- `AsciiCastEvent.to_json_line`: the serialized line, threading the
shared decoder state. -/
def AsciiCastEvent.to_json_line (st : Utf8State) (e : AsciiCastEvent) :
    Except PyError (String × Utf8State) :=
  match e.to_json_value st with
  | .ok (v, st2) =>
      match dumps v with
      | .ok s => .ok (s, st2)
      | .error err => .error err
  | .error err => .error err

/-- `AsciiCastEvent.from_json_line` after `json.loads`: unpacks exactly
three elements (`ValueError` otherwise), re-encodes the data string with
UTF-8 (`AttributeError` if the third element is not a string, which has no
`encode` method), and reconstructs with `duration = None` through
`AsciiCastEvent.__new__`. -/
def AsciiCastEvent.from_json_value (j : PyValue) :
    Except PyError AsciiCastEvent :=
  match j with
  | .list [t, et, ed] =>
      match ed with
      | .str s => AsciiCastEvent.new t et (.bytes (utf8EncodeStr s)) .none
      | _ => .error (.attributeError "encode")
  | .list _ => .error (.valueError "unpack")
  | _ => .error (.typeError "cannot unpack non-sequence")

/-- `AsciiCastRecord.from_json_line` after `json.loads`: routes on the
runtime type of the parsed top-level value (`dict` to the header decoder,
`list` to the event decoder, anything else raises `NotImplementedError`). -/
def AsciiCastRecord.from_json_value (j : PyValue) :
    Except PyError AsciiCastRecordV :=
  match j with
  | .dict kvs =>
      match AsciiCastHeader.from_json_value (.dict kvs) with
      | .ok h => .ok (.header h)
      | .error e => .error e
  | .list xs =>
      match AsciiCastEvent.from_json_value (.list xs) with
      | .ok ev => .ok (.event ev)
      | .error e => .error e
  | _ => .error .notImplementedError

/-! ## Helper lemmas: the incremental decoder inverts UTF-8 encoding -/

theorem charOfNat_toNat (c : Char) : Char.ofNat c.toNat = c := by
  have h : c.toNat.isValidChar := c.valid
  unfold Char.ofNat
  rw [dif_pos h]
  apply Char.eq_of_val_eq
  apply UInt32.eq_of_toBitVec_eq
  apply BitVec.eq_of_toNat_eq
  simp [Char.ofNatAux, BitVec.toNat_ofNatLt, Char.toNat, UInt32.toNat]

theorem leadLen_two (b : Nat) (h1 : 0xC2 ≤ b) (h2 : b < 0xE0) : leadLen b = 2 := by
  unfold leadLen; rw [if_neg (by omega), if_neg (by omega), if_pos (by omega)]

theorem start_lead (b : Nat) (h0 : 0x80 ≤ b) (hl : leadLen b ≠ 0) :
    utf8StartByte b = ([], some (b, [])) := by
  unfold utf8StartByte; rw [if_neg (by omega), if_neg hl]

theorem loop_one (n : Nat) (h : n < 0x80) (rest : List Nat) :
    utf8DecodeLoop Option.none (n :: rest) =
      (Char.ofNat n :: (utf8DecodeLoop Option.none rest).1,
       (utf8DecodeLoop Option.none rest).2) := by
  simp [utf8DecodeLoop, utf8Step, utf8StartByte, h]

theorem loop_two (n : Nat) (h1 : 0x80 ≤ n) (h2 : n < 0x800) (rest : List Nat) :
    utf8DecodeLoop Option.none ((0xC0 + n / 64) :: (0x80 + n % 64) :: rest) =
      (Char.ofNat n :: (utf8DecodeLoop Option.none rest).1,
       (utf8DecodeLoop Option.none rest).2) := by
  have hlen : leadLen (0xC0 + n / 64) = 2 := leadLen_two _ (by omega) (by omega)
  have e1 : utf8Step Option.none (0xC0 + n / 64) = ([], some (0xC0 + n / 64, [])) := by
    show utf8StartByte _ = _
    exact start_lead _ (by omega) (by omega)
  have hclo : cont1Lo (0xC0 + n / 64) = 0x80 := by
    unfold cont1Lo; rw [if_neg (by omega), if_neg (by omega)]
  have hchi : cont1Hi (0xC0 + n / 64) = 0xBF := by
    unfold cont1Hi; rw [if_neg (by omega), if_neg (by omega)]
  have e2 : utf8Step (some (0xC0 + n / 64, [])) (0x80 + n % 64) =
      ([Char.ofNat n], Option.none) := by
    simp only [utf8Step, List.length_nil, Nat.zero_add, eq_self_iff_true, if_true,
      hclo, hchi, hlen]
    rw [if_pos (show 0x80 ≤ 0x80 + n % 64 ∧ 0x80 + n % 64 ≤ 0xBF by
      constructor <;> omega)]
    have ha : utf8Assemble (0xC0 + n / 64) ([] ++ [0x80 + n % 64]) = n := by
      unfold utf8Assemble leadVal
      simp only [List.nil_append, List.foldl]
      rw [if_pos (by omega)]
      omega
    rw [ha]
  simp only [utf8DecodeLoop, e1, e2]
  simp

theorem step_cont_mid (lead : Nat) (cs : List Nat) (b : Nat)
    (hlo : (if cs.length + 1 = 1 then cont1Lo lead else 0x80) ≤ b)
    (hhi : b ≤ if cs.length + 1 = 1 then cont1Hi lead else 0xBF)
    (hfit : ¬(cs.length + 1 = leadLen lead - 1)) :
    utf8Step (some (lead, cs)) b = ([], some (lead, cs ++ [b])) := by
  simp only [utf8Step]
  rw [if_pos ⟨hlo, hhi⟩, if_neg hfit]

theorem step_cont_fin (lead : Nat) (cs : List Nat) (b : Nat)
    (hlo : (if cs.length + 1 = 1 then cont1Lo lead else 0x80) ≤ b)
    (hhi : b ≤ if cs.length + 1 = 1 then cont1Hi lead else 0xBF)
    (hfit : cs.length + 1 = leadLen lead - 1) :
    utf8Step (some (lead, cs)) b =
      ([Char.ofNat (utf8Assemble lead (cs ++ [b]))], Option.none) := by
  simp only [utf8Step]
  rw [if_pos ⟨hlo, hhi⟩, if_pos hfit]

theorem loop_three (n : Nat) (h1 : 0x800 ≤ n) (h2 : n < 0x10000)
    (hs : n < 0xD800 ∨ 0xDFFF < n) (rest : List Nat) :
    utf8DecodeLoop Option.none
        ((0xE0 + n / 4096) :: (0x80 + (n / 64) % 64) :: (0x80 + n % 64) :: rest) =
      (Char.ofNat n :: (utf8DecodeLoop Option.none rest).1,
       (utf8DecodeLoop Option.none rest).2) := by
  have hlen : leadLen (0xE0 + n / 4096) = 3 := by
    unfold leadLen
    rw [if_neg (by omega), if_neg (by omega), if_neg (by omega), if_pos (by omega)]
  have e1 : utf8Step Option.none (0xE0 + n / 4096) = ([], some (0xE0 + n / 4096, [])) := by
    show utf8StartByte _ = _
    exact start_lead _ (by omega) (by omega)
  have hlo : cont1Lo (0xE0 + n / 4096) ≤ 0x80 + (n / 64) % 64 := by
    unfold cont1Lo
    split
    · omega
    · split <;> omega
  have hhi : 0x80 + (n / 64) % 64 ≤ cont1Hi (0xE0 + n / 4096) := by
    unfold cont1Hi
    split
    · omega
    · split <;> omega
  have e2 : utf8Step (some (0xE0 + n / 4096, [])) (0x80 + (n / 64) % 64) =
      ([], some (0xE0 + n / 4096, [0x80 + (n / 64) % 64])) := by
    have := step_cont_mid (0xE0 + n / 4096) [] (0x80 + (n / 64) % 64)
      (by rw [if_pos (by simp)]; exact hlo) (by rw [if_pos (by simp)]; exact hhi)
      (by simp only [List.length_nil, hlen]; decide)
    simpa using this
  have e3 : utf8Step (some (0xE0 + n / 4096, [0x80 + (n / 64) % 64])) (0x80 + n % 64) =
      ([Char.ofNat n], Option.none) := by
    have ha : utf8Assemble (0xE0 + n / 4096)
        ([0x80 + (n / 64) % 64] ++ [0x80 + n % 64]) = n := by
      unfold utf8Assemble leadVal
      simp only [List.cons_append, List.nil_append, List.foldl]
      rw [if_neg (by omega), if_pos (by omega)]
      omega
    have := step_cont_fin (0xE0 + n / 4096) [0x80 + (n / 64) % 64] (0x80 + n % 64)
      (by rw [if_neg (by simp)]; omega) (by rw [if_neg (by simp)]; omega)
      (by simp only [List.length_cons, List.length_nil, hlen])
    rw [ha] at this
    exact this
  simp only [utf8DecodeLoop, e1, e2, e3]
  simp

theorem loop_four (n : Nat) (h1 : 0x10000 ≤ n) (h2 : n < 0x110000) (rest : List Nat) :
    utf8DecodeLoop Option.none
        ((0xF0 + n / 262144) :: (0x80 + (n / 4096) % 64) ::
         (0x80 + (n / 64) % 64) :: (0x80 + n % 64) :: rest) =
      (Char.ofNat n :: (utf8DecodeLoop Option.none rest).1,
       (utf8DecodeLoop Option.none rest).2) := by
  have hlen : leadLen (0xF0 + n / 262144) = 4 := by
    unfold leadLen
    rw [if_neg (by omega), if_neg (by omega), if_neg (by omega), if_neg (by omega),
      if_pos (by omega)]
  have e1 : utf8Step Option.none (0xF0 + n / 262144) =
      ([], some (0xF0 + n / 262144, [])) := by
    show utf8StartByte _ = _
    exact start_lead _ (by omega) (by omega)
  have hlo : cont1Lo (0xF0 + n / 262144) ≤ 0x80 + (n / 4096) % 64 := by
    unfold cont1Lo
    split
    · omega
    · split <;> omega
  have hhi : 0x80 + (n / 4096) % 64 ≤ cont1Hi (0xF0 + n / 262144) := by
    unfold cont1Hi
    split
    · omega
    · split <;> omega
  have e2 : utf8Step (some (0xF0 + n / 262144, [])) (0x80 + (n / 4096) % 64) =
      ([], some (0xF0 + n / 262144, [0x80 + (n / 4096) % 64])) := by
    have := step_cont_mid (0xF0 + n / 262144) [] (0x80 + (n / 4096) % 64)
      (by rw [if_pos (by simp)]; exact hlo) (by rw [if_pos (by simp)]; exact hhi)
      (by simp only [List.length_nil, hlen]; decide)
    simpa using this
  have e3 : utf8Step (some (0xF0 + n / 262144, [0x80 + (n / 4096) % 64]))
      (0x80 + (n / 64) % 64) =
      ([], some (0xF0 + n / 262144, [0x80 + (n / 4096) % 64, 0x80 + (n / 64) % 64])) := by
    have := step_cont_mid (0xF0 + n / 262144) [0x80 + (n / 4096) % 64]
      (0x80 + (n / 64) % 64)
      (by rw [if_neg (by simp)]; omega) (by rw [if_neg (by simp)]; omega)
      (by simp only [List.length_cons, List.length_nil, hlen]; decide)
    simpa using this
  have e4 : utf8Step (some (0xF0 + n / 262144,
        [0x80 + (n / 4096) % 64, 0x80 + (n / 64) % 64])) (0x80 + n % 64) =
      ([Char.ofNat n], Option.none) := by
    have ha : utf8Assemble (0xF0 + n / 262144)
        ([0x80 + (n / 4096) % 64, 0x80 + (n / 64) % 64] ++ [0x80 + n % 64]) = n := by
      unfold utf8Assemble leadVal
      simp only [List.cons_append, List.nil_append, List.foldl]
      rw [if_neg (by omega), if_neg (by omega)]
      omega
    have := step_cont_fin (0xF0 + n / 262144)
      [0x80 + (n / 4096) % 64, 0x80 + (n / 64) % 64] (0x80 + n % 64)
      (by rw [if_neg (by simp)]; omega) (by rw [if_neg (by simp)]; omega)
      (by simp only [List.length_cons, List.length_nil, hlen])
    rw [ha] at this
    exact this
  simp only [utf8DecodeLoop, e1, e2, e3, e4]
  simp

theorem loop_encodeChar (c : Char) (rest : List Nat) :
    utf8DecodeLoop Option.none (utf8EncodeChar c ++ rest) =
      (c :: (utf8DecodeLoop Option.none rest).1,
       (utf8DecodeLoop Option.none rest).2) := by
  have hv : c.toNat < 0xD800 ∨ (0xDFFF < c.toNat ∧ c.toNat < 0x110000) := c.valid
  by_cases ha : c.toNat < 0x80
  · rw [show utf8EncodeChar c = [c.toNat] by unfold utf8EncodeChar; rw [if_pos ha]]
    rw [List.cons_append, List.nil_append]
    rw [loop_one c.toNat ha rest, charOfNat_toNat]
  by_cases hb : c.toNat < 0x800
  · rw [show utf8EncodeChar c = [0xC0 + c.toNat / 64, 0x80 + c.toNat % 64] by
      unfold utf8EncodeChar; rw [if_neg ha, if_pos hb]]
    simp only [List.cons_append, List.nil_append]
    rw [loop_two c.toNat (by omega) hb rest, charOfNat_toNat]
  by_cases hc : c.toNat < 0x10000
  · rw [show utf8EncodeChar c =
        [0xE0 + c.toNat / 4096, 0x80 + (c.toNat / 64) % 64, 0x80 + c.toNat % 64] by
      unfold utf8EncodeChar; rw [if_neg ha, if_neg hb, if_pos hc]]
    simp only [List.cons_append, List.nil_append]
    rw [loop_three c.toNat (by omega) hc (by omega) rest, charOfNat_toNat]
  · rw [show utf8EncodeChar c =
        [0xF0 + c.toNat / 262144, 0x80 + (c.toNat / 4096) % 64,
         0x80 + (c.toNat / 64) % 64, 0x80 + c.toNat % 64] by
      unfold utf8EncodeChar; rw [if_neg ha, if_neg hb, if_neg hc]]
    simp only [List.cons_append, List.nil_append]
    rw [loop_four c.toNat (by omega) (by omega) rest, charOfNat_toNat]

theorem loop_encodeChars (cs : List Char) (rest : List Nat) :
    utf8DecodeLoop Option.none (utf8EncodeChars cs ++ rest) =
      (cs ++ (utf8DecodeLoop Option.none rest).1,
       (utf8DecodeLoop Option.none rest).2) := by
  induction cs with
  | nil => simp [utf8EncodeChars]
  | cons c cs ih =>
      rw [show utf8EncodeChars (c :: cs) = utf8EncodeChar c ++ utf8EncodeChars cs from rfl]
      rw [List.append_assoc, loop_encodeChar, ih]
      simp

theorem loop_encodeStr (s : String) :
    utf8DecodeLoop Option.none (utf8EncodeStr s) = (s.data, Option.none) := by
  have := loop_encodeChars s.data []
  simpa [utf8EncodeStr, utf8DecodeLoop] using this

/-! ## Helper lemmas: construction contracts and runtime types -/

theorem string_append_assoc (a b c : String) : a ++ b ++ c = a ++ (b ++ c) := by
  cases a with
  | mk ad =>
    cases b with
    | mk bd =>
      cases c with
      | mk cd =>
        show String.mk (ad ++ bd ++ cd) = String.mk (ad ++ (bd ++ cd))
        rw [List.append_assoc]

theorem header_new_ok_iff (v w h t : PyValue) (hdr : AsciiCastHeader) :
    AsciiCastHeader.new v w h t = .ok hdr ↔
      pyType v ∈ AsciiCastHeader.types "version" ∧
      pyType w ∈ AsciiCastHeader.types "width" ∧
      pyType h ∈ AsciiCastHeader.types "height" ∧
      pyType t ∈ AsciiCastHeader.types "theme" ∧
      pyEqInt v 2 = true ∧ (⟨v, w, h, t⟩ : AsciiCastHeader) = hdr := by
  unfold AsciiCastHeader.new
  repeat' split
  all_goals simp_all

theorem event_new_ok_iff (t et ed d : PyValue) (e : AsciiCastEvent) :
    AsciiCastEvent.new t et ed d = .ok e ↔
      pyType t ∈ AsciiCastEvent.types "time" ∧
      pyType et ∈ AsciiCastEvent.types "event_type" ∧
      pyType ed ∈ AsciiCastEvent.types "event_data" ∧
      pyType d ∈ AsciiCastEvent.types "duration" ∧
      (⟨t, et, ed, d⟩ : AsciiCastEvent) = e := by
  unfold AsciiCastEvent.new
  repeat' split
  all_goals simp_all

theorem pyType_int_iff (v : PyValue) : pyType v = .intT ↔ ∃ n, v = .int n := by
  cases v <;> simp [pyType]

theorem pyType_theme_iff (v : PyValue) :
    pyType v = .themeT ↔ ∃ a b c, v = .theme a b c := by
  cases v <;> simp [pyType]

theorem pyType_float_iff (v : PyValue) : pyType v = .floatT ↔ ∃ q, v = .float q := by
  cases v <;> simp [pyType]

theorem pyType_str_iff (v : PyValue) : pyType v = .strT ↔ ∃ s, v = .str s := by
  cases v <;> simp [pyType]

/-! ## The claims -/

/-- C1: for every valid `Header` (one accepted by the construction contract
`AsciiCastHeader.new`), decoding the JSON value produced by encoding it
yields a `Header` equal to it — both when the theme is present and when the
theme is absent (`None`), in which case the decoded header's theme is the
same `None`. -/
theorem header_round_trip (v w h t : PyValue) (hdr : AsciiCastHeader)
    (hnew : AsciiCastHeader.new v w h t = .ok hdr) :
    ∃ j, hdr.to_json_value = .ok j ∧
      AsciiCastHeader.from_json_value j = .ok hdr := by
  rw [header_new_ok_iff] at hnew
  obtain ⟨hv, hw, hh, ht, hval, rfl⟩ := hnew
  simp [AsciiCastHeader.types] at hv hw hh ht
  obtain ⟨nv, rfl⟩ := (pyType_int_iff v).1 hv
  obtain ⟨nw, rfl⟩ := (pyType_int_iff w).1 hw
  obtain ⟨nh, rfl⟩ := (pyType_int_iff h).1 hh
  have hnv : nv = 2 := by simpa [pyEqInt] using hval
  subst hnv
  rcases ht with ht | ht
  · have ht0 : t = .none := by cases t <;> simp_all [pyType]
    subst ht0
    exact ⟨_, rfl, rfl⟩
  · obtain ⟨a, b, c, rfl⟩ := (pyType_theme_iff t).1 ht
    exact ⟨_, rfl, rfl⟩

/-- Witness for C1: the round trip at `Header(2, 80, 24, None)` and at a
header carrying a theme. -/
theorem header_round_trip_witness :
    (∃ j, AsciiCastHeader.to_json_value ⟨.int 2, .int 80, .int 24, .none⟩ = .ok j ∧
      AsciiCastHeader.from_json_value j = .ok ⟨.int 2, .int 80, .int 24, .none⟩) ∧
    (∃ j, AsciiCastHeader.to_json_value
        ⟨.int 2, .int 80, .int 24,
         .theme (.str "#ffffff") (.str "#000000") (.str "#000:#fff")⟩ = .ok j ∧
      AsciiCastHeader.from_json_value j =
        .ok ⟨.int 2, .int 80, .int 24,
             .theme (.str "#ffffff") (.str "#000000") (.str "#000:#fff")⟩) :=
  ⟨header_round_trip (.int 2) (.int 80) (.int 24) .none _ rfl,
   header_round_trip (.int 2) (.int 80) (.int 24)
     (.theme (.str "#ffffff") (.str "#000000") (.str "#000:#fff")) _ rfl⟩

/-- C2: for every valid `Event` whose `event_data` is valid UTF-8 (the
encoding of a string `s`), encoding from the decoder's initial state and
then decoding reproduces `time`, `event_type` and `event_data` exactly,
and the decoded event's `duration` is `None` regardless of the original
duration `d` — duration is never serialized on the wire. -/
theorem event_round_trip (t et d : PyValue) (s : String) (e : AsciiCastEvent)
    (hnew : AsciiCastEvent.new t et (.bytes (utf8EncodeStr s)) d = .ok e) :
    AsciiCastEvent.to_json_value Option.none e =
      .ok (.list [t, et, .str s], Option.none) ∧
    AsciiCastEvent.from_json_value (.list [t, et, .str s]) =
      .ok ⟨t, et, .bytes (utf8EncodeStr s), .none⟩ := by
  rw [event_new_ok_iff] at hnew
  obtain ⟨ht, het, hed, hd, rfl⟩ := hnew
  constructor
  · simp only [AsciiCastEvent.to_json_value]
    simp only [loop_encodeStr s]
  · simp only [AsciiCastEvent.from_json_value]
    rw [event_new_ok_iff]
    refine ⟨ht, het, hed, ?_, rfl⟩
    simp [pyType, AsciiCastEvent.types]

/-- Witness for C2: round trip of `Event(0.5, "o", b"hello", 3)`; the
decoded event has `duration = None`. -/
theorem event_round_trip_witness :
    AsciiCastEvent.to_json_value Option.none
        ⟨.float (1 / 2), .str "o", .bytes (utf8EncodeStr "hello"), .int 3⟩ =
      .ok (.list [.float (1 / 2), .str "o", .str "hello"], Option.none) ∧
    AsciiCastEvent.from_json_value (.list [.float (1 / 2), .str "o", .str "hello"]) =
      .ok ⟨.float (1 / 2), .str "o", .bytes (utf8EncodeStr "hello"), .none⟩ :=
  event_round_trip (.float (1 / 2)) (.str "o") (.int 3) "hello" _ rfl

/-- Counterexample for C3: two successive encode calls on the same valid
Event with `event_data = b'\xc3'` (an incomplete UTF-8 prefix) produce
different output lines, because the module-level incremental decoder
buffers the byte across calls: the first call emits an empty data string,
the second emits U+FFFD. -/
theorem event_encode_cex :
    AsciiCastEvent.new (.int 0) (.str "o") (.bytes [0xC3]) .none =
      .ok ⟨.int 0, .str "o", .bytes [0xC3], .none⟩ ∧
    AsciiCastEvent.to_json_line Option.none
        ⟨.int 0, .str "o", .bytes [0xC3], .none⟩ =
      .ok ("[0, \"o\", \"\"]", some (0xC3, [])) ∧
    AsciiCastEvent.to_json_line (some (0xC3, []))
        ⟨.int 0, .str "o", .bytes [0xC3], .none⟩ =
      .ok ("[0, \"o\", \"�\"]", some (0xC3, [])) ∧
    ("[0, \"o\", \"\"]" : String) ≠ "[0, \"o\", \"�\"]" :=
  ⟨rfl, rfl, rfl, by decide⟩

/-- C3 (amended): encoding a valid Event never fails, whatever bytes
`event_data` holds and whatever the shared decoder's state — invalid
sequences are replaced (or buffered), not rejected; and the encoded line
is a deterministic function of the event and the decoder state.  When
`event_data` leaves the decoder buffer empty (no trailing incomplete
multi-byte prefix), encoding from the fresh decoder state returns to the
fresh state, so an immediately repeated encode of the same bytes yields
the same line.  (Stability fails for bytes ending in an incomplete
multi-byte prefix: see the counterexample.) -/
theorem event_encode_stable (t et d : PyValue) (bs : List Nat)
    (e : AsciiCastEvent)
    (hnew : AsciiCastEvent.new t et (.bytes bs) d = .ok e) :
    (∀ st : Utf8State, ∃ out, AsciiCastEvent.to_json_line st e = .ok out) ∧
    ((utf8DecodeLoop Option.none bs).2 = Option.none →
      ∃ line, AsciiCastEvent.to_json_line Option.none e = .ok (line, Option.none)) := by
  rw [event_new_ok_iff] at hnew
  obtain ⟨ht, het, hed, hd, rfl⟩ := hnew
  simp [AsciiCastEvent.types] at ht het
  obtain ⟨ss, rfl⟩ := (pyType_str_iff et).1 het
  have main : ∀ st : Utf8State,
      AsciiCastEvent.to_json_line st ⟨t, .str ss, .bytes bs, d⟩ =
        .ok ((match dumps t with
              | .ok s => "[" ++ s ++ ", " ++ jsonQuote ss ++ ", " ++
                  jsonQuote (String.mk (utf8DecodeLoop st bs).1) ++ "]"
              | .error _ => ""), (utf8DecodeLoop st bs).2) := by
    intro st
    rcases ht with ht | ht
    · obtain ⟨n, rfl⟩ := (pyType_int_iff t).1 ht
      simp [AsciiCastEvent.to_json_line, AsciiCastEvent.to_json_value,
        dumps, dumpsItems, string_append_assoc]
    · obtain ⟨q, rfl⟩ := (pyType_float_iff t).1 ht
      simp [AsciiCastEvent.to_json_line, AsciiCastEvent.to_json_value,
        dumps, dumpsItems, string_append_assoc]
  constructor
  · intro st
    exact ⟨_, main st⟩
  · intro hleft
    refine ⟨(match dumps t with
      | .ok s => "[" ++ s ++ ", " ++ jsonQuote ss ++ ", " ++
          jsonQuote (String.mk (utf8DecodeLoop Option.none bs).1) ++ "]"
      | .error _ => ""), ?_⟩
    rw [main Option.none, hleft]

/-- Witness for C3 (amended), at an event whose data is the definitively
invalid byte `0xFF`: encoding succeeds (the byte is replaced) and returns
the decoder to the empty state. -/
theorem event_encode_stable_witness :
    (∃ out, AsciiCastEvent.to_json_line Option.none
        ⟨.int 0, .str "o", .bytes [0xFF], .none⟩ = .ok out) ∧
    (∃ line, AsciiCastEvent.to_json_line Option.none
        ⟨.int 0, .str "o", .bytes [0xFF], .none⟩ = .ok (line, Option.none)) :=
  ⟨(event_encode_stable (.int 0) (.str "o") .none [0xFF] _ rfl).1 Option.none,
   (event_encode_stable (.int 0) (.str "o") .none [0xFF] _ rfl).2 rfl⟩

/-- C4: `Header` construction accepts version 2 only — any other integer
version fails with the `ValueError` "Only asciicast v2 format is
supported" once the field types are right, version 2 is accepted — and
the value check runs only after the field type checks, so a wrong-typed
version reports the `TypeError` for `version`, never the version-value
error. -/
theorem header_version_check (nw nh : Int) (t : PyValue)
    (htheme : pyType t ∈ AsciiCastHeader.types "theme") :
    (∀ n : Int, n ≠ 2 → AsciiCastHeader.new (.int n) (.int nw) (.int nh) t =
      .error (.valueError "Only asciicast v2 format is supported")) ∧
    AsciiCastHeader.new (.int 2) (.int nw) (.int nh) t =
      .ok ⟨.int 2, .int nw, .int nh, t⟩ ∧
    (∀ v w h t2 : PyValue, pyType v ≠ .intT →
      AsciiCastHeader.new v w h t2 = .error (.typeError "version")) := by
  have ht : t = PyValue.none ∨ ∃ a b c, t = .theme a b c := by
    simp [AsciiCastHeader.types] at htheme
    rcases htheme with h | h
    · left
      cases t <;> simp_all [pyType]
    · exact Or.inr ((pyType_theme_iff t).1 h)
  refine ⟨?_, ?_, ?_⟩
  · intro n hn
    rcases ht with rfl | ⟨a, b, c, rfl⟩ <;>
      simp [AsciiCastHeader.new, AsciiCastHeader.types, pyType, pyEqInt, hn]
  · rcases ht with rfl | ⟨a, b, c, rfl⟩ <;>
      simp [AsciiCastHeader.new, AsciiCastHeader.types, pyType, pyEqInt]
  · intro v w h t2 hv
    simp [AsciiCastHeader.new, AsciiCastHeader.types, hv]

/-- Witness for C4: versions 1 and 3 are rejected with the value error,
version 2 is accepted, and a string-typed version gets the type error. -/
theorem header_version_check_witness :
    AsciiCastHeader.new (.int 3) (.int 80) (.int 24) .none =
      .error (.valueError "Only asciicast v2 format is supported") ∧
    AsciiCastHeader.new (.int 1) (.int 80) (.int 24) .none =
      .error (.valueError "Only asciicast v2 format is supported") ∧
    AsciiCastHeader.new (.int 2) (.int 80) (.int 24) .none =
      .ok ⟨.int 2, .int 80, .int 24, .none⟩ ∧
    AsciiCastHeader.new (.str "2") (.int 80) (.int 24) .none =
      .error (.typeError "version") :=
  ⟨(header_version_check 80 24 .none (by decide)).1 3 (by decide),
   (header_version_check 80 24 .none (by decide)).1 1 (by decide),
   (header_version_check 80 24 .none (by decide)).2.1,
   (header_version_check 80 24 .none (by decide)).2.2 (.str "2") (.int 80)
     (.int 24) .none (by decide)⟩

/-- C5: the dispatcher routes a parsed line by the runtime type of its
top-level JSON value: an object (`dict`) is delegated to the Header
decoder, an array (`list`) to the Event decoder, and every other
top-level shape (string, number, boolean, null) fails with
`NotImplementedError`. -/
theorem record_dispatch_by_shape :
    (∀ kvs, AsciiCastRecord.from_json_value (.dict kvs) =
      Except.map AsciiCastRecordV.header
        (AsciiCastHeader.from_json_value (.dict kvs))) ∧
    (∀ xs, AsciiCastRecord.from_json_value (.list xs) =
      Except.map AsciiCastRecordV.event
        (AsciiCastEvent.from_json_value (.list xs))) ∧
    (∀ j : PyValue, pyType j ≠ .dictT → pyType j ≠ .listT →
      AsciiCastRecord.from_json_value j = .error .notImplementedError) := by
  refine ⟨?_, ?_, ?_⟩
  · intro kvs
    cases h : AsciiCastHeader.from_json_value (.dict kvs) <;>
      simp [AsciiCastRecord.from_json_value, h, Except.map]
  · intro xs
    cases h : AsciiCastEvent.from_json_value (.list xs) <;>
      simp [AsciiCastRecord.from_json_value, h, Except.map]
  · intro j h1 h2
    cases j <;> simp_all [pyType, AsciiCastRecord.from_json_value]

/-- Witness for C5: a header object and an event array are delegated, a
top-level string and a top-level null are unsupported shapes. -/
theorem record_dispatch_witness :
    AsciiCastRecord.from_json_value
        (.dict [("version", .int 2), ("width", .int 80), ("height", .int 24)]) =
      Except.map AsciiCastRecordV.header (AsciiCastHeader.from_json_value
        (.dict [("version", .int 2), ("width", .int 80), ("height", .int 24)])) ∧
    AsciiCastRecord.from_json_value (.list [.float (3 / 2), .str "o", .str "hi"]) =
      Except.map AsciiCastRecordV.event (AsciiCastEvent.from_json_value
        (.list [.float (3 / 2), .str "o", .str "hi"])) ∧
    AsciiCastRecord.from_json_value (.str "oops") = .error .notImplementedError ∧
    AsciiCastRecord.from_json_value .none = .error .notImplementedError :=
  ⟨record_dispatch_by_shape.1 _,
   record_dispatch_by_shape.2.1 _,
   record_dispatch_by_shape.2.2 _ (by decide) (by decide),
   record_dispatch_by_shape.2.2 _ (by decide) (by decide)⟩

/-- C6: constructing a Header whose `width` is float-typed fails with the
`TypeError` for `width`, even when the float is numerically integral —
integer fields accept exactly the integer runtime type, with no coercion
from float. -/
theorem header_width_float_rejected (n : Int) (q : Rat) (h t : PyValue) :
    AsciiCastHeader.new (.int n) (.float q) h t = .error (.typeError "width") := by
  simp [AsciiCastHeader.new, AsciiCastHeader.types, pyType]

/-- Witness for C6: `width = 80.0` is rejected. -/
theorem header_width_float_rejected_witness :
    AsciiCastHeader.new (.int 2) (.float 80) (.int 24) .none =
      .error (.typeError "width") :=
  header_width_float_rejected 2 80 (.int 24) .none

/-- C7: encoding `Header(2, 80, 24, None)` produces exactly the line
`{"version": 2, "width": 80, "height": 24}` (no trailing newline); in
general, a `None` theme omits the `theme` key entirely (it is not written
as `null`), and a present theme appears under the `theme` key as a nested
object with the theme's three fields. -/
theorem header_encode_line (nw nh : Int) (a b c : PyValue) :
    AsciiCastHeader.to_json_line ⟨.int 2, .int 80, .int 24, .none⟩ =
      .ok "\x7b\"version\": 2, \"width\": 80, \"height\": 24\x7d" ∧
    AsciiCastHeader.to_json_value ⟨.int 2, .int nw, .int nh, .none⟩ =
      .ok (.dict [("version", .int 2), ("width", .int nw), ("height", .int nh)]) ∧
    AsciiCastHeader.to_json_value ⟨.int 2, .int nw, .int nh, .theme a b c⟩ =
      .ok (.dict [("version", .int 2), ("width", .int nw), ("height", .int nh),
                  ("theme", .dict [("fg", a), ("bg", b), ("palette", c)])]) :=
  ⟨rfl, rfl, rfl⟩

/-- Witness for C7: the theme-present shape at a concrete theme. -/
theorem header_encode_line_witness :
    AsciiCastHeader.to_json_value
        ⟨.int 2, .int 80, .int 24,
         .theme (.str "#ffffff") (.str "#000000") (.str "#000:#fff")⟩ =
      .ok (.dict [("version", .int 2), ("width", .int 80), ("height", .int 24),
                  ("theme", .dict [("fg", .str "#ffffff"), ("bg", .str "#000000"),
                                   ("palette", .str "#000:#fff")])]) :=
  (header_encode_line 80 24 (.str "#ffffff") (.str "#000000") (.str "#000:#fff")).2.2

/-- Counterexample for C8: the theme sub-object's keys are NOT unpacked
positionally.  For the sub-object `{"bg": "#000000", "fg": "#ffffff",
"palette": "#000000:#ffffff"}`, positional unpacking would bind
`fg = "#000000"` (the first key's value); the code binds by keyword name,
giving `fg = "#ffffff" ≠ "#000000"`. -/
theorem theme_positional_cex :
    AsciiCastHeader.from_json_value
        (.dict [("version", .int 2), ("width", .int 80), ("height", .int 24),
                ("theme", .dict [("bg", .str "#000000"), ("fg", .str "#ffffff"),
                                 ("palette", .str "#000000:#ffffff")])]) =
      .ok ⟨.int 2, .int 80, .int 24,
           .theme (.str "#ffffff") (.str "#000000") (.str "#000000:#ffffff")⟩ ∧
    PyValue.str "#ffffff" ≠ PyValue.str "#000000" := by
  refine ⟨rfl, ?_⟩
  intro hcon
  exact absurd (PyValue.str.inj hcon) (by decide)

/-- C8 (amended): during Header decode, a present theme sub-object is
unpacked into a Theme by keyword name — its keys must be exactly `fg`,
`bg`, `palette` in any order, and each Theme field receives the value of
its same-named key (not the key at its position) — before the Theme is
attached to the reconstructed Header. -/
theorem theme_kwargs_by_name (nw nh : Int) (tkvs : List (String × PyValue))
    (f b p : PyValue)
    (hkeys : (tkvs.map Prod.fst).length = 3 ∧ "fg" ∈ tkvs.map Prod.fst ∧
             "bg" ∈ tkvs.map Prod.fst ∧ "palette" ∈ tkvs.map Prod.fst)
    (hf : dictLookup tkvs "fg" = some f) (hb : dictLookup tkvs "bg" = some b)
    (hp : dictLookup tkvs "palette" = some p) :
    AsciiCastHeader.from_json_value
        (.dict [("version", .int 2), ("width", .int nw), ("height", .int nh),
                ("theme", .dict tkvs)]) =
      .ok ⟨.int 2, .int nw, .int nh, .theme f b p⟩ := by
  have hth : themeFromKwargs (.dict tkvs) = .ok (.theme f b p) := by
    simp only [themeFromKwargs]
    rw [if_pos hkeys, hf, hb, hp]
    rfl
  have hred : AsciiCastHeader.from_json_value
      (.dict [("version", .int 2), ("width", .int nw), ("height", .int nh),
              ("theme", .dict tkvs)]) =
      match themeFromKwargs (.dict tkvs) with
      | .ok tv => AsciiCastHeader.new (.int 2) (.int nw) (.int nh) tv
      | .error e => .error e := rfl
  rw [hred, hth]
  rfl

/-- Witness for C8 (amended): a theme sub-object with keys in the order
`palette`, `bg`, `fg` still binds each field by name. -/
theorem theme_kwargs_by_name_witness :
    AsciiCastHeader.from_json_value
        (.dict [("version", .int 2), ("width", .int 80), ("height", .int 24),
                ("theme", .dict [("palette", .str "#000:#fff"),
                                 ("bg", .str "#000000"),
                                 ("fg", .str "#ffffff")])]) =
      .ok ⟨.int 2, .int 80, .int 24,
           .theme (.str "#ffffff") (.str "#000000") (.str "#000:#fff")⟩ :=
  theme_kwargs_by_name 80 24
    [("palette", .str "#000:#fff"), ("bg", .str "#000000"), ("fg", .str "#ffffff")]
    (.str "#ffffff") (.str "#000000") (.str "#000:#fff")
    (by decide) rfl rfl rfl

/-- C9: decoding a header object that lacks `version`, `width` or `height`
substitutes `None` for the missing field (the filtered-attributes
comprehension) and then fails inside the construction contract with the
`TypeError` for that field — there is no dedicated missing-field or parse
error. -/
theorem header_decode_missing_field (kvs : List (String × PyValue)) :
    (dictLookup kvs "version" = Option.none →
      headerFiltered kvs "version" = PyValue.none) ∧
    (dictLookup kvs "version" = Option.none →
      dictLookup kvs "theme" = Option.none →
      AsciiCastHeader.from_json_value (.dict kvs) =
        .error (.typeError "version")) ∧
    (∀ n : Int, dictLookup kvs "version" = some (.int n) →
      dictLookup kvs "width" = Option.none →
      dictLookup kvs "theme" = Option.none →
      AsciiCastHeader.from_json_value (.dict kvs) =
        .error (.typeError "width")) ∧
    (∀ n m : Int, dictLookup kvs "version" = some (.int n) →
      dictLookup kvs "width" = some (.int m) →
      dictLookup kvs "height" = Option.none →
      dictLookup kvs "theme" = Option.none →
      AsciiCastHeader.from_json_value (.dict kvs) =
        .error (.typeError "height")) := by
  refine ⟨?_, ?_, ?_, ?_⟩
  · intro hv
    simp [headerFiltered, hv]
  · intro hv hth
    simp only [AsciiCastHeader.from_json_value, headerFiltered, hv, hth]
    simp [pyIsNone, AsciiCastHeader.new, AsciiCastHeader.types, pyType]
  · intro n hv hw hth
    simp only [AsciiCastHeader.from_json_value, headerFiltered, hv, hw, hth]
    simp [pyIsNone, AsciiCastHeader.new, AsciiCastHeader.types, pyType]
  · intro n m hv hw hh hth
    simp only [AsciiCastHeader.from_json_value, headerFiltered, hv, hw, hh, hth]
    simp [pyIsNone, AsciiCastHeader.new, AsciiCastHeader.types, pyType]

/-- Witness for C9: a header object without `version` decodes to the
`version` type error; one with `version` but without `width` decodes to
the `width` type error. -/
theorem header_decode_missing_field_witness :
    headerFiltered [("width", PyValue.int 80), ("height", PyValue.int 24)]
      "version" = PyValue.none ∧
    AsciiCastHeader.from_json_value
        (.dict [("width", .int 80), ("height", .int 24)]) =
      .error (.typeError "version") ∧
    AsciiCastHeader.from_json_value
        (.dict [("version", .int 2), ("height", .int 24)]) =
      .error (.typeError "width") :=
  ⟨(header_decode_missing_field [("width", .int 80), ("height", .int 24)]).1 rfl,
   (header_decode_missing_field [("width", .int 80), ("height", .int 24)]).2.1 rfl rfl,
   (header_decode_missing_field [("version", .int 2), ("height", .int 24)]).2.2.1
     2 rfl rfl rfl⟩

/-- C10: booleans are rejected wherever integers or numbers are required,
because the validators test exact runtime-type membership (`type(x)` is
`bool`, not `int`, even though Python's `bool` subclasses `int`): a
boolean `version`, `width` or `height` fails Header construction, and a
boolean `time` or `duration` fails Event construction, each with the
`TypeError` naming that field. -/
theorem bool_rejected_exact_type (b : Bool) :
    (∀ w h t : PyValue, AsciiCastHeader.new (.bool b) w h t =
      .error (.typeError "version")) ∧
    (∀ (n : Int) (h t : PyValue), AsciiCastHeader.new (.int n) (.bool b) h t =
      .error (.typeError "width")) ∧
    (∀ (n m : Int) (t : PyValue), AsciiCastHeader.new (.int n) (.int m) (.bool b) t =
      .error (.typeError "height")) ∧
    (∀ et ed d : PyValue, AsciiCastEvent.new (.bool b) et ed d =
      .error (.typeError "time")) ∧
    (∀ (n : Int) (ss : String) (bs : List Nat),
      AsciiCastEvent.new (.int n) (.str ss) (.bytes bs) (.bool b) =
        .error (.typeError "duration")) := by
  refine ⟨?_, ?_, ?_, ?_, ?_⟩ <;> intros <;>
    simp [AsciiCastHeader.new, AsciiCastHeader.types,
      AsciiCastEvent.new, AsciiCastEvent.types, pyType]

/-- Witness for C10: `True` and `False` rejected in each numeric field. -/
theorem bool_rejected_exact_type_witness :
    AsciiCastHeader.new (.bool true) (.int 80) (.int 24) .none =
      .error (.typeError "version") ∧
    AsciiCastHeader.new (.int 2) (.bool true) (.int 24) .none =
      .error (.typeError "width") ∧
    AsciiCastHeader.new (.int 2) (.int 80) (.bool false) .none =
      .error (.typeError "height") ∧
    AsciiCastEvent.new (.bool true) (.str "o") (.bytes []) .none =
      .error (.typeError "time") ∧
    AsciiCastEvent.new (.int 1) (.str "o") (.bytes []) (.bool true) =
      .error (.typeError "duration") :=
  ⟨(bool_rejected_exact_type true).1 (.int 80) (.int 24) .none,
   (bool_rejected_exact_type true).2.1 2 (.int 24) .none,
   (bool_rejected_exact_type false).2.2.1 2 80 .none,
   (bool_rejected_exact_type true).2.2.2.1 (.str "o") (.bytes []) .none,
   (bool_rejected_exact_type true).2.2.2.2 1 "o" []⟩
